import Mathlib

/-!
Verification of the MCP-Hub conversation loop and weather tools.

This file gives a shallow embedding of the parts of the repository that the
spec talks about:

* `src/client/lw_orch_client.py` — the `MCPClient` class, in particular
  `process_query` (one model round: append the user message when a query is
  given, call the model, translate the output items, execute tool calls,
  append request/result pairs to history) and the inner loop of `chat`
  (up to `max_try = 5` rounds per user turn).
* `src/client/lw_orch_client.py` — the pure helpers `convert2openai_tool`,
  `parse_openai_message`, `parse_openai_function_call`,
  `convert2openai_function_call_output`.
* `src/server/weather.py` — `get_adcode_by_city`, `get_forecast`,
  `get_realtime_weather`, with `make_request` (the HTTP layer) as an oracle
  returning the parsed JSON object or the Python value None on any transport
  or HTTP error.

External effects are modelled as oracle functions: the OpenAI responses
endpoint is a function from the input item list to a list of output items;
`session.call_tool` is a function returning either a result or the message of
a raised exception; `json.loads` is a function returning an optional decoded
value.  Python exceptions that propagate are modelled with `Except String`;
JSON values are modelled by the inductive `JValue`, with Python None as
`JValue.null` where it flows into a JSON position and with `Option` where the
code tests for None.  `json.dumps` serialisation is represented by keeping
the structured value itself.
-/

/-- JSON-like values: the payloads flowing between model, client and tools. -/
inductive JValue where
  | str (s : String)
  | num (n : Int)
  | bool (b : Bool)
  | null
  | arr (xs : List JValue)
  | obj (fields : List (String × JValue))
deriving Repr

/-- Key lookup in a JSON object, as Python dict indexing / membership. -/
def jLookup (fields : List (String × JValue)) (key : String) : Option JValue :=
  match fields.find? (fun p => p.1 == key) with
  | some p => some p.2
  | none => none

/-! ## Client data model (`lw_orch_client.py`) -/

/-- One item of the conversation history (the `messages` list sent as the
`input` of the responses API).

* `user` — the dict with role user and the query as content, appended by
  `process_query` when `query is not None`;
* `assistant` — a model output item of type message, appended to history
  verbatim (its content is the list of text segments);
* `functionCall` — a model output item of type function_call, appended
  verbatim (`call_id`, tool name, and the serialised arguments string);
* `functionCallOutput` — the dict built by
  `convert2openai_function_call_output` or by the error branch, carrying the
  `call_id` of the request and the output payload. -/
inductive Item where
  | user (content : String)
  | assistant (content : List String)
  | functionCall (call_id : String) (name : String) (arguments : String)
  | functionCallOutput (call_id : String) (output : JValue)
deriving Repr

/-- One item of a model response (`response.output`): either a message
(content is its list of text segments) or a function call. -/
inductive OutputItem where
  | message (content : List String)
  | functionCall (call_id : String) (name : String) (arguments : String)
deriving Repr

/-- Does an output item have type function_call?  (The `elif` branch of the
loop in `process_query`.) -/
def OutputItem.isCall : OutputItem → Bool
  | .message _ => false
  | .functionCall _ _ _ => true

/-- The result object of `session.call_tool`: `structuredContent` may be the
Python value None (`none`), in which case `content` is used instead. -/
structure CallToolResult where
  structuredContent : Option JValue
  content : JValue
deriving Repr

/-- The external collaborators of `MCPClient`, as oracles:

* `json_loads` — `json.loads` on an arguments string; `none` models a raised
  `json.JSONDecodeError`;
* `call_tool` — `await self.session.call_tool name args`; `.error e` models a
  raised exception with message `e`;
* `model_respond` — the model endpoint reached through
  `make_request2openai` / `self.openai.responses.create`: from the full input
  item list to the list of output items of the response.  (The instructions
  string and the tool schema list do not influence the control flow modelled
  here and are folded into the oracle.) -/
structure Env where
  json_loads : String → Option JValue
  call_tool : String → JValue → Except String CallToolResult
  model_respond : List Item → List OutputItem

/-- `parse_openai_message`: concatenate the text of every segment of a
message item. -/
def parse_openai_message (content : List String) : String :=
  content.foldl (fun results item => results ++ item) ""

/-- `parse_openai_function_call`: the tool name together with
`json.loads content.arguments`; `none` when decoding raises. -/
def parse_openai_function_call (json_loads : String → Option JValue)
    (name : String) (arguments : String) : Option (String × JValue) :=
  (json_loads arguments).map (fun args => (name, args))

/-- `convert2openai_function_call_output`: the output payload is
`structuredContent` when that is not None, else `content`. -/
def convert2openai_function_call_output (call_id : String)
    (mcp_result : CallToolResult) : Item :=
  Item.functionCallOutput call_id
    (mcp_result.structuredContent.getD mcp_result.content)

/-- The message of the `json.loads` failure that propagates out of
`process_query` (it is raised before the per-tool try/except begins). -/
def jsonDecodeErrorMsg : String := "json.decoder.JSONDecodeError"

/-- The final_text line logged for a successful tool call. -/
def callingText (name : String) (_args : JValue) : String :=
  "正在调用工具 " ++ name

/-- The final_text line logged for a failed tool call. -/
def failText (e : String) : String :=
  "工具调用失败: " ++ e

/-- The `for content in response.output` loop of `process_query`: returns
`(final_text, assistant_message_content, has_tool_calls)`, or `.error` when
an arguments string fails to decode (the `json.loads` exception is raised
outside the per-tool try/except and propagates).  A message item contributes
its parsed text and is appended to the content verbatim; a function_call item
is executed through `call_tool` and contributes the request item followed by
exactly one function_call_output item with the same `call_id` — on a raised
tool exception the output payload is the object with key error and the
exception text as value. -/
def process_output (json_loads : String → Option JValue)
    (call_tool : String → JValue → Except String CallToolResult) :
    List OutputItem → Except String (List String × List Item × Bool)
  | [] => .ok ([], [], false)
  | OutputItem.message c :: rest =>
      match process_output json_loads call_tool rest with
      | .error e => .error e
      | .ok (final_text, content, has_tool_calls) =>
          .ok (parse_openai_message c :: final_text,
               Item.assistant c :: content, has_tool_calls)
  | OutputItem.functionCall call_id name arguments :: rest =>
      match parse_openai_function_call json_loads name arguments with
      | none => .error jsonDecodeErrorMsg
      | some (tool_name, tool_args) =>
        match call_tool tool_name tool_args with
        | .ok mcp_result =>
            match process_output json_loads call_tool rest with
            | .error e => .error e
            | .ok (final_text, content, _) =>
                .ok (callingText tool_name tool_args :: final_text,
                     Item.functionCall call_id name arguments ::
                       convert2openai_function_call_output call_id mcp_result ::
                       content,
                     true)
        | .error e =>
            match process_output json_loads call_tool rest with
            | .error e2 => .error e2
            | .ok (final_text, content, _) =>
                .ok (failText e :: final_text,
                     Item.functionCall call_id name arguments ::
                       Item.functionCallOutput call_id
                         (JValue.obj [("error", JValue.str e)]) ::
                       content,
                     true)

/-- The input item list handed to the model: the history, extended with a
user message exactly when `query is not None` (`messages.append` at the top
of `process_query`).  The continuation rounds of `chat` pass the empty
string, which is not None. -/
def modelInput (query : Option String) (messages : List Item) : List Item :=
  match query with
  | some q => messages ++ [Item.user q]
  | none => messages

/-- `MCPClient.process_query`: append the user message when a query is given,
call the model once on the full current history, translate and execute the
output items, and return `(final_text, new history, has_tool_calls)`.  The
new history is the model input followed by the collected assistant message
content. -/
def process_query (env : Env) (query : Option String) (messages : List Item) :
    Except String (List String × List Item × Bool) :=
  match process_output env.json_loads env.call_tool
      (env.model_respond (modelInput query messages)) with
  | .error e => .error e
  | .ok (final_text, content, has_tool_calls) =>
      .ok (final_text, modelInput query messages ++ content, has_tool_calls)

/-- Outcome of one user turn of `chat`:

* `answered` — a round without tool calls printed its accumulated text
  (green) and broke out of the round loop;
* `retryExceeded` — the round loop ran `max_try` times, each round with tool
  calls; the retry-exceeded message is printed after the loop;
* `errored` — an exception propagated out of `process_query` and was caught
  by the per-turn try/except of `chat`. -/
inductive TurnOutcome where
  | answered (final_text : List String)
  | retryExceeded
  | errored (e : String)
deriving DecidableEq, Repr

/-- The inner `while current_try < max_try` loop of `MCPClient.chat`,
recursing on `remaining = max_try - current_try` (so the loop guard
`current_try < max_try` is `remaining > 0`).  Returns the outcome, the
history for the next user turn, and the number of `process_query`
invocations (model calls) performed.  On a round with tool calls the loop
continues with `query = some ""` (the code sets the query to the empty
string, which `process_query` treats as a new user message because its guard
tests `is not None`).  When `process_query` raises, the exception is caught
by the per-turn try/except and the history keeps the user message that was
already appended to the list by mutation. -/
def chat_rounds (env : Env) (query : Option String) (messages : List Item) :
    Nat → TurnOutcome × List Item × Nat
  | 0 => (.retryExceeded, messages, 0)
  | remaining + 1 =>
    match process_query env query messages with
    | .error e => (.errored e, modelInput query messages, 1)
    | .ok (output_text, messages2, has_tool_calls) =>
        if has_tool_calls then
          let next_round := chat_rounds env (some "") messages2 remaining
          (next_round.1, next_round.2.1, next_round.2.2 + 1)
        else
          (.answered output_text, messages2, 1)

/-- One user turn of `MCPClient.chat`: the round loop starting from the
query read from the user, with `max_try = 5` and `current_try = 0`. -/
def chat_turn (env : Env) (query : String) (messages : List Item) :
    TurnOutcome × List Item × Nat :=
  chat_rounds env (some query) messages 5

/-! ## Weather server (`src/server/weather.py`) -/

/-- Constants of `weather.py`. -/
def API_BASE : String := "https://restapi.amap.com/v3/weather/weatherInfo"

def API_KEY : String := "1239f8d61a0eafd9d7828251c11e04ad"

/-- The message of the `NotFound` exception raised by `get_adcode_by_city`
for a city absent from the 高德 adcode table. -/
def cityNotFoundMsg (city : String) : String :=
  "City " ++ city ++ " not found in 高德 database. Maybe there is a typo, " ++
    "Or Maybe city name is not ending with 省/市/区."

/-- The missing-data message of `get_forecast`. -/
def noForecastMsg : String := "There is no forecast data for this city"

/-- The missing-data message of `get_realtime_weather`. -/
def noRealtimeMsg : String := "There is no realtime weather data for this city"

/-- The Python TypeError raised by a membership test on the value None
(the string is the CPython message). -/
def noneTypeErrorMsg : String :=
  "TypeError: argument of type NoneType is not iterable"

/-- `get_adcode_by_city`: first row of the adcode table (pairs of 中文名 and
adcode) whose name equals the city; `.error` models the raised `NotFound`
exception, carrying its message. -/
def get_adcode_by_city (city2code : List (String × String)) (city : String) :
    Except String String :=
  match city2code.find? (fun row => row.1 == city) with
  | none => .error (cityNotFoundMsg city)
  | some row => .ok row.2

/-- Shape of the value returned by `make_request`, which is modelled as an
oracle from the request params to this type: `none` is the Python value None
(returned on any transport or HTTP error), `some fields` is the parsed JSON
object of the response body. -/
abbrev HttpResult := Option (List (String × JValue))

/-- `get_forecast`: look up the adcode (a raised `NotFound` is caught and its
message returned as the tool result), request the forecast through
`make_request`, and guard for missing forecast data.  The value `.ok` is what
the tool returns; `.error` models a Python exception escaping the tool.
Note the membership test `"forecasts" not in forecast_data` is executed on
whatever `make_request` returned: when that is None it raises a TypeError. -/
def get_forecast (city2code : List (String × String))
    (make_request : List (String × String) → HttpResult)
    (city : String) : Except String JValue :=
  match get_adcode_by_city city2code city with
  | .error msg => .ok (JValue.str msg)
  | .ok adcode =>
    let forecast_params :=
      [("key", API_KEY), ("city", adcode), ("extensions", "all"),
       ("output", "JSON")]
    match make_request forecast_params with
    | none => .error noneTypeErrorMsg
    | some forecast_data =>
      match jLookup forecast_data "forecasts" with
      | none => .ok (JValue.str noForecastMsg)
      | some (JValue.arr []) => .ok (JValue.str noForecastMsg)
      | some (JValue.arr (JValue.obj first :: _)) =>
          match jLookup first "casts" with
          | some casts => .ok casts
          | none => .error "KeyError: casts"
      | some (JValue.arr (_ :: _)) => .error "TypeError: not subscriptable"
      | some _ => .error "TypeError: len of non-sequence"

/-- `get_realtime_weather`: same structure as `get_forecast` with the lives
field and the realtime missing-data message, returning the first element of
lives.  The try/except around the body catches only `NotFound`, so the
TypeError from a None response escapes here too. -/
def get_realtime_weather (city2code : List (String × String))
    (make_request : List (String × String) → HttpResult)
    (city : String) : Except String JValue :=
  match get_adcode_by_city city2code city with
  | .error msg => .ok (JValue.str msg)
  | .ok adcode =>
    let realtime_weather_params :=
      [("key", API_KEY), ("city", adcode), ("extensions", "base"),
       ("output", "JSON")]
    match make_request realtime_weather_params with
    | none => .error noneTypeErrorMsg
    | some realtime_weather_data =>
      match jLookup realtime_weather_data "lives" with
      | none => .ok (JValue.str noRealtimeMsg)
      | some (JValue.arr []) => .ok (JValue.str noRealtimeMsg)
      | some (JValue.arr (live :: _)) => .ok live
      | some _ => .error "TypeError: len of non-sequence"

/-! ## Tool catalog translation (`convert2openai_tool`) -/

/-- A tool descriptor as listed by the MCP server: name, description, and
the JSON input schema (a JSON object, accessed by key). -/
structure MCPTool where
  name : String
  description : String
  inputSchema : List (String × JValue)

/-- `MCPClient.convert2openai_tool`: each tool maps to the object with type
function, the tool name and description, and a parameters object holding
only type object and the properties sub-object of the input schema.
`.error` models the KeyError raised when a schema has no properties key. -/
def convert2openai_tool : List MCPTool → Except String (List JValue)
  | [] => .ok []
  | tool :: rest =>
      match jLookup tool.inputSchema "properties" with
      | none => .error "KeyError: properties"
      | some props =>
          match convert2openai_tool rest with
          | .error e => .error e
          | .ok others =>
              .ok (JValue.obj
                [("type", JValue.str "function"),
                 ("name", JValue.str tool.name),
                 ("description", JValue.str tool.description),
                 ("parameters", JValue.obj
                   [("type", JValue.str "object"), ("properties", props)])] ::
                others)

/-! ## History shape predicates -/

/-- A history fragment is well paired when every function call item is
immediately followed by exactly one function_call_output item carrying the
same `call_id`, and no output item appears except in such a pair. -/
def wellPaired : List Item → Bool
  | [] => true
  | Item.functionCall call_id _ _ :: rest =>
      match rest with
      | Item.functionCallOutput call_id2 _ :: rest2 =>
          call_id == call_id2 && wellPaired rest2
      | _ => false
  | Item.functionCallOutput _ _ :: _ => false
  | _ :: rest => wellPaired rest

/-- The sequence of tool-call request items of a history fragment, as
(call_id, name, arguments) triples, in order. -/
def requestsOf : List Item → List (String × String × String)
  | [] => []
  | Item.functionCall call_id name arguments :: rest =>
      (call_id, name, arguments) :: requestsOf rest
  | _ :: rest => requestsOf rest

/-- The sequence of function_call items of a model response, as
(call_id, name, arguments) triples, in order. -/
def callsOf : List OutputItem → List (String × String × String)
  | [] => []
  | OutputItem.functionCall call_id name arguments :: rest =>
      (call_id, name, arguments) :: callsOf rest
  | _ :: rest => callsOf rest

/-- Structure of a successful round translation: the appended content is well
paired, its request items are exactly the function_call items of the model
response in the order the model emitted them, and the tool-calls flag is set
iff some output item was a function call. -/
theorem process_output_shape (json_loads : String → Option JValue)
    (call_tool : String → JValue → Except String CallToolResult)
    (out : List OutputItem) (final_text : List String) (content : List Item)
    (b : Bool)
    (h : process_output json_loads call_tool out = .ok (final_text, content, b)) :
    wellPaired content = true ∧ requestsOf content = callsOf out ∧
      b = out.any OutputItem.isCall := by
  induction out generalizing final_text content b with
  | nil =>
    simp only [process_output, Except.ok.injEq, Prod.mk.injEq] at h
    obtain ⟨h1, h2, h3⟩ := h
    subst h1; subst h2; subst h3
    simp [wellPaired, requestsOf, callsOf]
  | cons head rest ih =>
    cases head with
    | message c =>
      cases hrest : process_output json_loads call_tool rest with
      | error e =>
        simp only [process_output, hrest] at h
        simp at h
      | ok trip =>
        obtain ⟨t2, c2, b2⟩ := trip
        simp only [process_output, hrest, Except.ok.injEq, Prod.mk.injEq] at h
        obtain ⟨h1, h2, h3⟩ := h
        subst h1; subst h2; subst h3
        obtain ⟨w1, w2, w3⟩ := ih t2 c2 b2 hrest
        refine ⟨?_, ?_, ?_⟩
        · simpa [wellPaired] using w1
        · simpa [requestsOf, callsOf] using w2
        · simpa [List.any, OutputItem.isCall] using w3
    | functionCall call_id name arguments =>
      cases hdec : parse_openai_function_call json_loads name arguments with
      | none =>
        simp only [process_output, hdec] at h
        simp at h
      | some pair =>
        obtain ⟨tool_name, tool_args⟩ := pair
        cases hct : call_tool tool_name tool_args with
        | ok mcp_result =>
          cases hrest : process_output json_loads call_tool rest with
          | error e =>
            simp only [process_output, hdec, hct, hrest] at h
            simp at h
          | ok trip =>
            obtain ⟨t2, c2, b2⟩ := trip
            simp only [process_output, hdec, hct, hrest, Except.ok.injEq, Prod.mk.injEq] at h
            obtain ⟨h1, h2, h3⟩ := h
            subst h1; subst h2; subst h3
            obtain ⟨w1, w2, w3⟩ := ih t2 c2 b2 hrest
            refine ⟨?_, ?_, ?_⟩
            · simpa [wellPaired, convert2openai_function_call_output] using w1
            · simpa [requestsOf, callsOf, convert2openai_function_call_output]
                using w2
            · simp [List.any, OutputItem.isCall]
        | error e =>
          cases hrest : process_output json_loads call_tool rest with
          | error e2 =>
            simp only [process_output, hdec, hct, hrest] at h
            simp at h
          | ok trip =>
            obtain ⟨t2, c2, b2⟩ := trip
            simp only [process_output, hdec, hct, hrest, Except.ok.injEq, Prod.mk.injEq] at h
            obtain ⟨h1, h2, h3⟩ := h
            subst h1; subst h2; subst h3
            obtain ⟨w1, w2, w3⟩ := ih t2 c2 b2 hrest
            refine ⟨?_, ?_, ?_⟩
            · simpa [wellPaired] using w1
            · simpa [requestsOf, callsOf] using w2
            · simp [List.any, OutputItem.isCall]

/-! ## Helper lemmas shared across claims -/

/-- The model input extends the received history. -/
theorem modelInput_extends (query : Option String) (messages : List Item) :
    ∃ u, modelInput query messages = messages ++ u := by
  cases query with
  | none => exact ⟨[], by simp [modelInput]⟩
  | some q => exact ⟨[Item.user q], rfl⟩

/-- A successful `process_query` only appends to the history it received. -/
theorem process_query_ok_extends (env : Env) (query : Option String)
    (messages : List Item) (final_text : List String) (out : List Item)
    (b : Bool)
    (h : process_query env query messages = .ok (final_text, out, b)) :
    ∃ s, out = messages ++ s := by
  cases hpo : process_output env.json_loads env.call_tool
      (env.model_respond (modelInput query messages)) with
  | error e =>
    simp only [process_query, hpo] at h
    simp at h
  | ok trip =>
    obtain ⟨t2, c2, b2⟩ := trip
    simp only [process_query, hpo, Except.ok.injEq, Prod.mk.injEq] at h
    obtain ⟨h1, h2, h3⟩ := h
    obtain ⟨u, hu⟩ := modelInput_extends query messages
    exact ⟨u ++ c2, by rw [← h2, hu, List.append_assoc]⟩

/-! ## Claims -/

/-- Witness environment: the model requests two tools in one round, then
sends a plain message; decoding and tool execution always succeed. -/
def envW : Env where
  json_loads := fun _ => some JValue.null
  call_tool := fun _ _ => .ok ⟨some (JValue.str "ok"), JValue.null⟩
  model_respond := fun _ =>
    [OutputItem.functionCall "call1" "toolA" "null",
     OutputItem.functionCall "call2" "toolB" "null",
     OutputItem.message ["done"]]

/-- C1: for every round processed by `process_query`, the items appended to
history are well paired — every tool-call request item is immediately
followed by exactly one function_call_output item with the same call_id, and
no other output items occur — and the requests appear in the very order the
model emitted the function_call items (they are executed sequentially in
that order). -/
theorem c1_tool_call_pairing (env : Env) (query : Option String)
    (messages : List Item) (final_text : List String) (out : List Item)
    (b : Bool)
    (h : process_query env query messages = .ok (final_text, out, b)) :
    ∃ s, out = modelInput query messages ++ s ∧ wellPaired s = true ∧
      requestsOf s = callsOf (env.model_respond (modelInput query messages)) := by
  cases hpo : process_output env.json_loads env.call_tool
      (env.model_respond (modelInput query messages)) with
  | error e =>
    simp only [process_query, hpo] at h
    simp at h
  | ok trip =>
    obtain ⟨t2, c2, b2⟩ := trip
    simp only [process_query, hpo, Except.ok.injEq, Prod.mk.injEq] at h
    obtain ⟨h1, h2, h3⟩ := h
    obtain ⟨w1, w2, w3⟩ := process_output_shape _ _ _ _ _ _ hpo
    exact ⟨c2, h2.symm, w1, w2⟩

/-- Witness for C1 on `envW`: a round with two tool calls and a message. -/
theorem c1_tool_call_pairing_witness :
    ∃ s,
      [Item.user "hi",
       Item.functionCall "call1" "toolA" "null",
       Item.functionCallOutput "call1" (JValue.str "ok"),
       Item.functionCall "call2" "toolB" "null",
       Item.functionCallOutput "call2" (JValue.str "ok"),
       Item.assistant ["done"]] = modelInput (some "hi") [] ++ s ∧
      wellPaired s = true ∧
      requestsOf s = callsOf (envW.model_respond (modelInput (some "hi") [])) :=
  c1_tool_call_pairing envW (some "hi") []
    ["正在调用工具 toolA", "正在调用工具 toolB", "done"] _ true rfl

/-- C7: the history is append-only — the message list `process_query`
receives is a prefix of the list it returns, and the list it sends to the
model (`modelInput`) is also a prefix of the returned list — and the single
model call of the round consults the model exactly at the full current
history `modelInput query messages`: its result only depends on the model
oracle through that value. -/
theorem c7_history_append_only (env : Env) (query : Option String)
    (messages : List Item) (final_text : List String) (out : List Item)
    (b : Bool)
    (h : process_query env query messages = .ok (final_text, out, b)) :
    (∃ s, out = messages ++ s) ∧
    (∃ u, out = modelInput query messages ++ u) ∧
    (∀ env2 : Env, env2.json_loads = env.json_loads →
      env2.call_tool = env.call_tool →
      env2.model_respond (modelInput query messages) =
        env.model_respond (modelInput query messages) →
      process_query env2 query messages = process_query env query messages) := by
  refine ⟨process_query_ok_extends env query messages final_text out b h,
    ?_, ?_⟩
  · cases hpo : process_output env.json_loads env.call_tool
        (env.model_respond (modelInput query messages)) with
    | error e =>
      simp only [process_query, hpo] at h
      simp at h
    | ok trip =>
      obtain ⟨t2, c2, b2⟩ := trip
      simp only [process_query, hpo, Except.ok.injEq, Prod.mk.injEq] at h
      exact ⟨c2, h.2.1.symm⟩
  · intro env2 hj hc hm
    simp only [process_query, hj, hc, hm]

/-- Witness for C7 on `envW`. -/
theorem c7_history_append_only_witness :
    (∃ s,
      [Item.user "origin", Item.user "hi",
       Item.functionCall "call1" "toolA" "null",
       Item.functionCallOutput "call1" (JValue.str "ok"),
       Item.functionCall "call2" "toolB" "null",
       Item.functionCallOutput "call2" (JValue.str "ok"),
       Item.assistant ["done"]] = [Item.user "origin"] ++ s) ∧
    (∃ u,
      [Item.user "origin", Item.user "hi",
       Item.functionCall "call1" "toolA" "null",
       Item.functionCallOutput "call1" (JValue.str "ok"),
       Item.functionCall "call2" "toolB" "null",
       Item.functionCallOutput "call2" (JValue.str "ok"),
       Item.assistant ["done"]] = modelInput (some "hi") [Item.user "origin"] ++ u) ∧
    (∀ env2 : Env, env2.json_loads = envW.json_loads →
      env2.call_tool = envW.call_tool →
      env2.model_respond (modelInput (some "hi") [Item.user "origin"]) =
        envW.model_respond (modelInput (some "hi") [Item.user "origin"]) →
      process_query env2 (some "hi") [Item.user "origin"] =
        process_query envW (some "hi") [Item.user "origin"]) := by
  exact c7_history_append_only envW (some "hi") [Item.user "origin"]
    ["正在调用工具 toolA", "正在调用工具 toolB", "done"] _ true rfl

/-- A response without function_call items is translated without consulting
the tool backend or the decoder: the round succeeds with the tool-calls flag
false. -/
theorem process_output_no_calls (json_loads : String → Option JValue)
    (call_tool : String → JValue → Except String CallToolResult)
    (out : List OutputItem)
    (hnc : out.all (fun i => !i.isCall) = true) :
    ∃ t h, process_output json_loads call_tool out = .ok (t, h, false) := by
  induction out with
  | nil => exact ⟨[], [], rfl⟩
  | cons head rest ih =>
    cases head with
    | message c =>
      simp only [List.all_cons, OutputItem.isCall, Bool.not_false,
        Bool.true_and] at hnc
      obtain ⟨t, hh, hrest⟩ := ih hnc
      exact ⟨parse_openai_message c :: t, Item.assistant c :: hh,
        by simp only [process_output, hrest]⟩
    | functionCall call_id name arguments =>
      simp [List.all_cons, OutputItem.isCall] at hnc

/-- C2: when the model response of a round contains zero tool-call items,
`process_query` returns with the tool-calls flag false and the round loop of
`chat` ends the turn with the accumulated text as the final answer, having
issued exactly this one model call. -/
theorem c2_no_calls_ends_turn (env : Env) (query : Option String)
    (messages : List Item) (remaining : Nat)
    (hr : 0 < remaining)
    (hnc : (env.model_respond (modelInput query messages)).all
      (fun i => !i.isCall) = true) :
    ∃ t out, process_query env query messages = .ok (t, out, false) ∧
      chat_rounds env query messages remaining = (.answered t, out, 1) := by
  obtain ⟨t, hh, hpo⟩ := process_output_no_calls env.json_loads env.call_tool
    (env.model_respond (modelInput query messages)) hnc
  refine ⟨t, modelInput query messages ++ hh, ?_, ?_⟩
  · simp only [process_query, hpo]
  · cases remaining with
    | zero => omega
    | succ r =>
      simp only [chat_rounds, process_query, hpo]
      simp

/-- Environment whose model never requests a tool. -/
def envMsg : Env where
  json_loads := fun _ => none
  call_tool := fun _ _ => .error "unreachable backend"
  model_respond := fun _ => [OutputItem.message ["hello", " there"]]

/-- Witness for C2 on `envMsg`. -/
theorem c2_no_calls_ends_turn_witness :
    ∃ t out,
      process_query envMsg (some "hi") [] = .ok (t, out, false) ∧
      chat_rounds envMsg (some "hi") [] 5 = (.answered t, out, 1) :=
  c2_no_calls_ends_turn envMsg (some "hi") [] 5 (by decide) (by decide)

/-- The round loop performs at most `remaining` model calls. -/
theorem chat_rounds_le (env : Env) :
    ∀ (remaining : Nat) (query : Option String) (messages : List Item),
      (chat_rounds env query messages remaining).2.2 ≤ remaining := by
  intro remaining
  induction remaining with
  | zero => intro q m; simp [chat_rounds]
  | succ r ih =>
    intro q m
    cases hpq : process_query env q m with
    | error e => simp [chat_rounds, hpq]
    | ok trip =>
      obtain ⟨t, m2, b⟩ := trip
      cases b with
      | false => simp [chat_rounds, hpq]
      | true =>
        simp only [chat_rounds, hpq, if_true]
        exact Nat.succ_le_succ (ih (some "") m2)

/-- The round loop only appends to the history it starts from. -/
theorem chat_rounds_extends (env : Env) :
    ∀ (remaining : Nat) (query : Option String) (messages : List Item),
      ∃ s, (chat_rounds env query messages remaining).2.1 = messages ++ s := by
  intro remaining
  induction remaining with
  | zero => intro q m; exact ⟨[], by simp [chat_rounds]⟩
  | succ r ih =>
    intro q m
    cases hpq : process_query env q m with
    | error e =>
      obtain ⟨u, hu⟩ := modelInput_extends q m
      exact ⟨u, by simp [chat_rounds, hpq, hu]⟩
    | ok trip =>
      obtain ⟨t, m2, b⟩ := trip
      obtain ⟨s1, hs1⟩ := process_query_ok_extends env q m t m2 b hpq
      cases b with
      | false => exact ⟨s1, by simp [chat_rounds, hpq, hs1]⟩
      | true =>
        obtain ⟨s2, hs2⟩ := ih (some "") m2
        refine ⟨s1 ++ s2, ?_⟩
        simp only [chat_rounds, hpq, if_true]
        rw [hs2, hs1, List.append_assoc]

/-- When the loop ends by exhausting its tries, it performed exactly
`remaining` rounds, each of which had tool calls. -/
theorem chat_rounds_retry (env : Env) :
    ∀ (remaining : Nat) (query : Option String) (messages : List Item),
      (chat_rounds env query messages remaining).1 = .retryExceeded →
      (chat_rounds env query messages remaining).2.2 = remaining := by
  intro remaining
  induction remaining with
  | zero => intro q m _; simp [chat_rounds]
  | succ r ih =>
    intro q m hretry
    cases hpq : process_query env q m with
    | error e => simp [chat_rounds, hpq] at hretry
    | ok trip =>
      obtain ⟨t, m2, b⟩ := trip
      cases b with
      | false => simp [chat_rounds, hpq] at hretry
      | true =>
        simp only [chat_rounds, hpq, if_true] at hretry ⊢
        rw [ih (some "") m2 hretry]

/-- C3: within one user turn the number of tool-call rounds never exceeds
the configured maximum of 5; when the turn ends with the retry-exceeded
message, exactly 5 rounds (each containing tool calls) ran, and the history
accumulated by those rounds is kept for the next user turn — nothing of the
incoming history is removed. -/
theorem c3_round_limit (env : Env) (query : String) (messages : List Item)
    (o : TurnOutcome) (messages2 : List Item) (n : Nat)
    (h : chat_turn env query messages = (o, messages2, n)) :
    n ≤ 5 ∧ (o = .retryExceeded → n = 5 ∧ ∃ s, messages2 = messages ++ s) := by
  have h1 := chat_rounds_le env 5 (some query) messages
  have h2 := chat_rounds_extends env 5 (some query) messages
  have h3 := chat_rounds_retry env 5 (some query) messages
  rw [chat_turn] at h
  rw [h] at h1 h2 h3
  exact ⟨h1, fun ho => ⟨h3 ho, h2⟩⟩

/-- Environment whose model requests a tool on every round. -/
def envLoop : Env where
  json_loads := fun _ => some JValue.null
  call_tool := fun _ _ => .ok ⟨some (JValue.str "r"), JValue.null⟩
  model_respond := fun _ => [OutputItem.functionCall "c" "t" "null"]

/-- Witness for C3 on `envLoop`: the turn aborts after exactly 5 rounds. -/
theorem c3_round_limit_witness :
    (chat_turn envLoop "q" []).1 = TurnOutcome.retryExceeded ∧
    (chat_turn envLoop "q" []).2.2 ≤ 5 ∧
    (chat_turn envLoop "q" []).2.2 = 5 ∧
    ∃ s, (chat_turn envLoop "q" []).2.1 = [] ++ s := by
  obtain ⟨a, b⟩ := c3_round_limit envLoop "q" []
    (chat_turn envLoop "q" []).1 (chat_turn envLoop "q" []).2.1
    (chat_turn envLoop "q" []).2.2 rfl
  obtain ⟨c, d⟩ := b (by decide)
  exact ⟨by decide, a, c, d⟩

/-- C4: when executing a requested tool raises an exception, `process_query`
catches it and still appends a function_call_output item with the same
call_id whose payload is the object with key error and the exception text as
value; no exception escapes `process_query` (the round returns `.ok`), and
the remaining items of the round continue to be processed after the failed
call. -/
theorem c4_tool_failure_captured (env : Env) (query : Option String)
    (messages : List Item) (call_id name arguments : String)
    (tool_args : JValue) (e : String) (rest : List OutputItem)
    (txt : List String) (content : List Item) (b : Bool)
    (hm : env.model_respond (modelInput query messages) =
      OutputItem.functionCall call_id name arguments :: rest)
    (hd : env.json_loads arguments = some tool_args)
    (ht : env.call_tool name tool_args = .error e)
    (hrest : process_output env.json_loads env.call_tool rest =
      .ok (txt, content, b)) :
    process_query env query messages = .ok
      (failText e :: txt,
       modelInput query messages ++
         Item.functionCall call_id name arguments ::
         Item.functionCallOutput call_id
           (JValue.obj [("error", JValue.str e)]) ::
         content,
       true) := by
  simp only [process_query, hm, process_output, parse_openai_function_call,
    hd, Option.map_some', ht, hrest]

/-- Environment where the requested tool raises and the model also sends a
trailing message item in the same round. -/
def envErr : Env where
  json_loads := fun _ => some JValue.null
  call_tool := fun _ _ => .error "boom"
  model_respond := fun _ =>
    [OutputItem.functionCall "c9" "badtool" "null",
     OutputItem.message ["after"]]

/-- Witness for C4 on `envErr`. -/
theorem c4_tool_failure_captured_witness :
    process_query envErr (some "hi") [] = .ok
      (failText "boom" :: ["after"],
       modelInput (some "hi") [] ++
         Item.functionCall "c9" "badtool" "null" ::
         Item.functionCallOutput "c9"
           (JValue.obj [("error", JValue.str "boom")]) ::
         [Item.assistant ["after"]],
       true) :=
  c4_tool_failure_captured envErr (some "hi") [] "c9" "badtool" "null"
    JValue.null "boom" [OutputItem.message ["after"]] ["after"]
    [Item.assistant ["after"]] false rfl rfl rfl rfl

/-- Every function_call item of the list has arguments that `json.loads`
decodes. -/
def callsDecode (json_loads : String → Option JValue) : List OutputItem → Bool
  | [] => true
  | OutputItem.functionCall _ _ arguments :: rest =>
      (json_loads arguments).isSome && callsDecode json_loads rest
  | _ :: rest => callsDecode json_loads rest

/-- Translation of a round hits the first undecodable arguments string and
propagates the `json.loads` exception, whatever the tool backend does. -/
theorem process_output_decode_fatal (json_loads : String → Option JValue)
    (call_tool : String → JValue → Except String CallToolResult)
    (pre : List OutputItem) (call_id name arguments : String)
    (post : List OutputItem)
    (hpre : callsDecode json_loads pre = true)
    (hd : json_loads arguments = none) :
    process_output json_loads call_tool
      (pre ++ OutputItem.functionCall call_id name arguments :: post) =
      .error jsonDecodeErrorMsg := by
  induction pre with
  | nil =>
    simp only [List.nil_append, process_output, parse_openai_function_call,
      hd, Option.map_none']
  | cons head rest ih =>
    cases head with
    | message c =>
      simp only [callsDecode] at hpre
      simp only [List.cons_append, process_output, List.append_eq, ih hpre]
    | functionCall call_id2 name2 arguments2 =>
      simp only [callsDecode, Bool.and_eq_true, Option.isSome_iff_exists] at hpre
      obtain ⟨⟨a, ha⟩, hpre2⟩ := hpre
      cases hct : call_tool name2 a with
      | ok mcp_result =>
        simp only [List.cons_append, process_output, List.append_eq,
          parse_openai_function_call, ha, Option.map_some', hct, ih hpre2]
      | error e =>
        simp only [List.cons_append, process_output, List.append_eq,
          parse_openai_function_call, ha, Option.map_some', hct, ih hpre2]

/-- C8: when the serialised arguments of a tool-call request fail to decode,
the failure is fatal for the turn: `process_query` raises (returns `.error`)
instead of producing a failure outcome or a function_call_output item, no
tool is dispatched for that request, and the per-tool try/except does not
capture the error (the raise happens before it). -/
theorem c8_decode_failure_fatal (env : Env) (query : Option String)
    (messages : List Item) (pre : List OutputItem)
    (call_id name arguments : String) (post : List OutputItem)
    (hm : env.model_respond (modelInput query messages) =
      pre ++ OutputItem.functionCall call_id name arguments :: post)
    (hpre : callsDecode env.json_loads pre = true)
    (hd : env.json_loads arguments = none) :
    process_query env query messages = .error jsonDecodeErrorMsg := by
  simp only [process_query, hm,
    process_output_decode_fatal env.json_loads env.call_tool pre call_id name
      arguments post hpre hd]

/-- Environment where the second requested tool call has undecodable
arguments. -/
def envDec : Env where
  json_loads := fun s => if s == "good" then some JValue.null else none
  call_tool := fun _ _ => .ok ⟨some (JValue.str "ok"), JValue.null⟩
  model_respond := fun _ =>
    [OutputItem.functionCall "a" "t1" "good",
     OutputItem.functionCall "b" "t2" "bad"]

/-- Witness for C8 on `envDec`. -/
theorem c8_decode_failure_fatal_witness :
    process_query envDec (some "x") [] = .error jsonDecodeErrorMsg :=
  c8_decode_failure_fatal envDec (some "x") []
    [OutputItem.functionCall "a" "t1" "good"] "b" "t2" "bad" [] rfl rfl rfl

/-- C6: the catalog translation is a pure map over the tool list — each
descriptor maps to an object that preserves the tool name and description
exactly and whose parameters field holds only type object and the properties
sub-object of the original input schema; no other schema key (required,
additionalProperties, ...) is forwarded. -/
theorem c6_catalog_translation (tools : List MCPTool) (out : List JValue)
    (h : convert2openai_tool tools = .ok out) :
    List.Forall₂ (fun (tool : MCPTool) (o : JValue) => ∃ props,
      jLookup tool.inputSchema "properties" = some props ∧
      o = JValue.obj
        [("type", JValue.str "function"),
         ("name", JValue.str tool.name),
         ("description", JValue.str tool.description),
         ("parameters", JValue.obj
           [("type", JValue.str "object"), ("properties", props)])])
      tools out := by
  induction tools generalizing out with
  | nil =>
    simp only [convert2openai_tool, Except.ok.injEq] at h
    subst h
    exact List.Forall₂.nil
  | cons tool rest ih =>
    cases hp : jLookup tool.inputSchema "properties" with
    | none =>
      simp only [convert2openai_tool, hp] at h
      simp at h
    | some props =>
      cases hrest : convert2openai_tool rest with
      | error e =>
        simp only [convert2openai_tool, hp, hrest] at h
        simp at h
      | ok others =>
        simp only [convert2openai_tool, hp, hrest, Except.ok.injEq] at h
        subst h
        exact List.Forall₂.cons ⟨props, hp, rfl⟩ (ih others hrest)

/-- The tool descriptor of the spec example: a schema with properties and a
required key. -/
def toolW : MCPTool where
  name := "get_weather"
  description := "Get weather for a city"
  inputSchema :=
    [("properties", JValue.obj [("city", JValue.obj [("type", JValue.str "string")])]),
     ("required", JValue.arr [JValue.str "city"])]

/-- Witness for C6 on `toolW`: the required key is dropped, name and
description survive unchanged. -/
theorem c6_catalog_translation_witness :
    List.Forall₂ (fun (tool : MCPTool) (o : JValue) => ∃ props,
      jLookup tool.inputSchema "properties" = some props ∧
      o = JValue.obj
        [("type", JValue.str "function"),
         ("name", JValue.str tool.name),
         ("description", JValue.str tool.description),
         ("parameters", JValue.obj
           [("type", JValue.str "object"), ("properties", props)])])
      [toolW]
      [JValue.obj
        [("type", JValue.str "function"),
         ("name", JValue.str "get_weather"),
         ("description", JValue.str "Get weather for a city"),
         ("parameters", JValue.obj
           [("type", JValue.str "object"),
            ("properties", JValue.obj
              [("city", JValue.obj [("type", JValue.str "string")])])])]] :=
  c6_catalog_translation [toolW] _ rfl

/-- C9: a city absent from the geocode table makes `get_adcode_by_city`
raise `NotFound`, and both weather tools convert that exception into the
user-visible message string returned as the tool result — the exception does
not cross the tool boundary, for every behaviour of the HTTP layer. -/
theorem c9_not_found_as_message (city2code : List (String × String))
    (make_request1 make_request2 : List (String × String) → HttpResult)
    (city : String)
    (h : city2code.find? (fun row => row.1 == city) = none) :
    get_forecast city2code make_request1 city =
      .ok (JValue.str (cityNotFoundMsg city)) ∧
    get_realtime_weather city2code make_request2 city =
      .ok (JValue.str (cityNotFoundMsg city)) := by
  constructor <;>
    simp [get_forecast, get_realtime_weather, get_adcode_by_city, h]

/-- Witness for C9: the empty table and an unreachable HTTP layer. -/
theorem c9_not_found_as_message_witness :
    get_forecast [] (fun _ => none) "Atlantis" =
      .ok (JValue.str (cityNotFoundMsg "Atlantis")) ∧
    get_realtime_weather [] (fun _ => none) "Atlantis" =
      .ok (JValue.str (cityNotFoundMsg "Atlantis")) :=
  c9_not_found_as_message [] (fun _ => none) (fun _ => none) "Atlantis" rfl

/-- Does the history already contain a function_call_output item?  Used by
the demonstration environments to answer differently on continuation
rounds. -/
def hasOutputItem (history : List Item) : Bool :=
  history.any (fun i => match i with
    | Item.functionCallOutput _ _ => true
    | _ => false)

/-- Environment for the continuation-round demonstration: the model requests
one tool on the first round and answers with plain text as soon as a tool
result is in the history. -/
def envBug : Env where
  json_loads := fun _ => some JValue.null
  call_tool := fun _ _ => .ok ⟨some (JValue.str "ok"), JValue.null⟩
  model_respond := fun history =>
    if hasOutputItem history then [OutputItem.message ["done"]]
    else [OutputItem.functionCall "call1" "toolA" "null"]

/-- C5 (behaviour of the code at the failing input): on the continuation
round after tool execution, `chat` passes the empty string — not None — so
the guard `query is not None` in `process_query` appends a user message with
empty content to the history.  The final history of this two-round turn
contains `Item.user ""` between the tool result and the final assistant
message, where the spec requires nothing to be appended. -/
theorem c5_continuation_appends_empty_user :
    chat_turn envBug "hi" [] =
      (TurnOutcome.answered ["done"],
       [Item.user "hi",
        Item.functionCall "call1" "toolA" "null",
        Item.functionCallOutput "call1" (JValue.str "ok"),
        Item.user "",
        Item.assistant ["done"]],
       2) := rfl

/-- C10 (behaviour of the code at the failing input): for a city present in
the geocode table, when `make_request` returns None (any transport or HTTP
error), the membership test `"forecasts" not in forecast_data` runs on None
and raises a TypeError that escapes `get_forecast` — the missing-forecast
guard does not produce the message. -/
theorem c10_none_response_raises :
    get_forecast [("北京市", "110100")] (fun _ => none) "北京市" =
      .error noneTypeErrorMsg := rfl
